import Mathlib

set_option maxRecDepth 131072
set_option maxHeartbeats 1000000

/-!
Verification development for the News-Sites-Web-Scrapper repository.

The Python sources are shallowly embedded as executable Lean definitions:

* `src/src/models/article.py`   -> `Article`, `ArticleCollection`
* `src/src/utils/validators.py` -> `clean_text`, `normalize_url`, `parse_date`
* `src/src/utils/rate_limiter.py` -> `DomainThrottler`
* `src/src/sources/kenya.py`, `usa.py` -> `scrape`, `scrape_region_news`
* `src/src/scraper.py`          -> `scrape_all`
* `src/src/exporters/csv_exporter.py` -> `article_to_row`

Machine integers are modelled as `Nat` with explicit reduction modulo
`2 ^ 32` where the Python code relies on fixed-width arithmetic (the md5
hash), wall-clock time is modelled as `Rat`, and fallible operations
return `Option` or `Except`.
-/

namespace NewsScraper

/-! ## Bytes and hex strings -/

/-- UTF-8 encoding of a single character, as byte values (models Python
`str.encode()` on one code point). -/
def utf8Bytes (c : Char) : List Nat :=
  let n := c.toNat
  if n < 0x80 then [n]
  else if n < 0x800 then
    [0xC0 ||| (n >>> 6), 0x80 ||| (n &&& 0x3F)]
  else if n < 0x10000 then
    [0xE0 ||| (n >>> 12), 0x80 ||| ((n >>> 6) &&& 0x3F), 0x80 ||| (n &&& 0x3F)]
  else
    [0xF0 ||| (n >>> 18), 0x80 ||| ((n >>> 12) &&& 0x3F),
     0x80 ||| ((n >>> 6) &&& 0x3F), 0x80 ||| (n &&& 0x3F)]

/-- UTF-8 encoding of a string (models Python `str.encode()`). -/
def strBytes (s : String) : List Nat :=
  s.data.flatMap utf8Bytes

/-- Lower-case hex digit for a value below 16. -/
def hexDigit (n : Nat) : Char :=
  if n < 10 then Char.ofNat (48 + n) else Char.ofNat (87 + n)

/-- Two-digit lower-case hex rendering of one byte. -/
def byteHex (b : Nat) : List Char :=
  [hexDigit (b / 16 % 16), hexDigit (b % 16)]

/-! ## List-based string operations

Kernel-reducible counterparts of the standard string operations (the
core `String` versions recurse on byte positions, which a witness
evaluation cannot unfold). -/

/-- Prefix of a string (`s[:n]` for a non-negative `n`). -/
def strTake (s : String) (n : Nat) : String := String.mk (s.data.take n)

/-- Drop the first `n` characters. -/
def strDrop (s : String) (n : Nat) : String := String.mk (s.data.drop n)

/-- Python `s.startswith(pre)`. -/
def strStartsWith (s pre : String) : Bool := pre.data.isPrefixOf s.data

/-- Split at every character satisfying `p` (keeping empty pieces), as
`str.split`-with-separator does. -/
def splitPred (p : Char → Bool) (s : String) : List String :=
  (s.data.foldr
    (fun c acc =>
      match acc with
      | h :: t => if p c then [] :: h :: t else (c :: h) :: t
      | [] => [[c]]) [[]]).map String.mk

/-- Python `s.split(sep)` for a one-character separator. -/
def splitOnChar (sep : Char) (s : String) : List String :=
  splitPred (fun c => c = sep) s

/-- Python `sep.join(parts)`. -/
def joinSep (sep : String) : List String → String
  | [] => ""
  | [x] => x
  | x :: y :: t => x ++ sep ++ joinSep sep (y :: t)

/-- ASCII lower-casing of a string. -/
def strToLower (s : String) : String := String.mk (s.data.map Char.toLower)

/-- Replace every leftmost non-overlapping occurrence of `pat`
(non-empty) by `repl`; fuel is the text length. -/
def replaceAllAux (pat repl : List Char) : Nat → List Char → List Char
  | 0, l => l
  | _ + 1, [] => []
  | n + 1, c :: cs =>
      if pat.isPrefixOf (c :: cs) then
        repl ++ replaceAllAux pat repl n ((c :: cs).drop pat.length)
      else c :: replaceAllAux pat repl n cs

/-- Python `s.replace(pat, repl)` for a non-empty pattern. -/
def strReplace (s pat repl : String) : String :=
  if pat = "" then s
  else String.mk (replaceAllAux pat.data repl.data s.data.length s.data)

/-! ## MD5 (models Python `hashlib.md5`) -/

/-- Reduce to a 32-bit word. -/
def u32 (n : Nat) : Nat := n % 4294967296

/-- 32-bit bitwise complement (argument assumed below `2 ^ 32`). -/
def unot32 (n : Nat) : Nat := 4294967295 ^^^ n

/-- 32-bit left rotation. -/
def rotl32 (x s : Nat) : Nat :=
  u32 ((x <<< s) ||| (x >>> (32 - s)))

/-- The 64 md5 sine-derived round constants. -/
def md5K : List Nat :=
  [0xd76aa478, 0xe8c7b756, 0x242070db, 0xc1bdceee,
   0xf57c0faf, 0x4787c62a, 0xa8304613, 0xfd469501,
   0x698098d8, 0x8b44f7af, 0xffff5bb1, 0x895cd7be,
   0x6b901122, 0xfd987193, 0xa679438e, 0x49b40821,
   0xf61e2562, 0xc040b340, 0x265e5a51, 0xe9b6c7aa,
   0xd62f105d, 0x02441453, 0xd8a1e681, 0xe7d3fbc8,
   0x21e1cde6, 0xc33707d6, 0xf4d50d87, 0x455a14ed,
   0xa9e3e905, 0xfcefa3f8, 0x676f02d9, 0x8d2a4c8a,
   0xfffa3942, 0x8771f681, 0x6d9d6122, 0xfde5380c,
   0xa4beea44, 0x4bdecfa9, 0xf6bb4b60, 0xbebfbc70,
   0x289b7ec6, 0xeaa127fa, 0xd4ef3085, 0x04881d05,
   0xd9d4d039, 0xe6db99e5, 0x1fa27cf8, 0xc4ac5665,
   0xf4292244, 0x432aff97, 0xab9423a7, 0xfc93a039,
   0x655b59c3, 0x8f0ccc92, 0xffeff47d, 0x85845dd1,
   0x6fa87e4f, 0xfe2ce6e0, 0xa3014314, 0x4e0811a1,
   0xf7537e82, 0xbd3af235, 0x2ad7d2bb, 0xeb86d391]

/-- The 64 md5 per-round left-rotation amounts. -/
def md5S : List Nat :=
  [7, 12, 17, 22, 7, 12, 17, 22, 7, 12, 17, 22, 7, 12, 17, 22,
   5, 9, 14, 20, 5, 9, 14, 20, 5, 9, 14, 20, 5, 9, 14, 20,
   4, 11, 16, 23, 4, 11, 16, 23, 4, 11, 16, 23, 4, 11, 16, 23,
   6, 10, 15, 21, 6, 10, 15, 21, 6, 10, 15, 21, 6, 10, 15, 21]

/-- Running md5 state: the four 32-bit chaining words. -/
structure MD5State where
  a : Nat
  b : Nat
  c : Nat
  d : Nat
deriving Repr, DecidableEq

/-- md5 initial chaining state. -/
def md5Init : MD5State := ⟨0x67452301, 0xefcdab89, 0x98badcfe, 0x10325476⟩

/-- One of the 64 md5 rounds; `m i` is the i-th little-endian message
word of the current block. -/
def md5Round (m : Nat → Nat) (st : MD5State) (i : Nat) : MD5State :=
  let f :=
    if i < 16 then (st.b &&& st.c) ||| (unot32 st.b &&& st.d)
    else if i < 32 then (st.d &&& st.b) ||| (unot32 st.d &&& st.c)
    else if i < 48 then st.b ^^^ st.c ^^^ st.d
    else st.c ^^^ (st.b ||| unot32 st.d)
  let g :=
    if i < 16 then i
    else if i < 32 then (5 * i + 1) % 16
    else if i < 48 then (3 * i + 5) % 16
    else (7 * i) % 16
  let f := u32 (f + st.a + md5K.getD i 0 + m g)
  ⟨st.d, u32 (st.b + rotl32 f (md5S.getD i 0)), st.b, st.c⟩

/-- Little-endian 32-bit word assembled from four bytes of a block. -/
def leWord (block : List Nat) (i : Nat) : Nat :=
  block.getD (4 * i) 0 + (block.getD (4 * i + 1) 0 <<< 8) +
    (block.getD (4 * i + 2) 0 <<< 16) + (block.getD (4 * i + 3) 0 <<< 24)

/-- Process one 64-byte block through the md5 compression function. -/
def md5Block (block : List Nat) (st : MD5State) : MD5State :=
  let r := (List.range 64).foldl (md5Round (leWord block)) st
  ⟨u32 (st.a + r.a), u32 (st.b + r.b), u32 (st.c + r.c), u32 (st.d + r.d)⟩

/-- Fold the compression function over a padded byte stream, 64 bytes at
a time; the first argument is structural-recursion fuel and is always
called with at least the number of blocks. -/
def md5Blocks : Nat → List Nat → MD5State → MD5State
  | 0, _, st => st
  | _ + 1, [], st => st
  | n + 1, l, st => md5Blocks n (l.drop 64) (md5Block (l.take 64) st)

/-- Fold the compression function over a padded byte stream. -/
def md5Chunks (l : List Nat) (st : MD5State) : MD5State :=
  md5Blocks l.length l st

/-- md5 padding: a 0x80 byte, zeros to 56 mod 64, then the 64-bit
little-endian bit length of the original message. -/
def md5Pad (msg : List Nat) : List Nat :=
  let lenBits := msg.length * 8 % 18446744073709551616
  let zeros := (55 + 2 * 64 - msg.length % 64) % 64
  msg ++ [0x80] ++ List.replicate zeros 0 ++
    (List.range 8).map (fun i => (lenBits >>> (8 * i)) % 256)

/-- Little-endian byte rendering of one 32-bit word. -/
def wordBytesLE (w : Nat) : List Nat :=
  [(w % 256), (w >>> 8) % 256, (w >>> 16) % 256, (w >>> 24) % 256]

/-- Lower-case hex md5 digest of a string, models
`hashlib.md5(s.encode()).hexdigest()`. -/
def md5hex (s : String) : String :=
  let st := md5Chunks (md5Pad (strBytes s)) md5Init
  String.mk (([st.a, st.b, st.c, st.d].flatMap wordBytesLE).flatMap byteHex)

/-! ## Python string helpers -/

/-- The ASCII whitespace characters recognised by Python `str.split()` /
`str.strip()` (unicode spaces are outside the scope of this model). -/
def pyIsSpace (c : Char) : Bool :=
  c = ' ' ∨ c = '\t' ∨ c = '\n' ∨ c = '\r' ∨ c = '\x0b' ∨ c = '\x0c'

/-- Python `s.split()`: split on whitespace runs, discarding empties. -/
def pySplitWs (s : String) : List String :=
  (splitPred pyIsSpace s).filter (fun w => w ≠ "")

/-- Python `' '.join(s.split())`: collapse whitespace runs to single
spaces and trim the ends. -/
def pyCollapse (s : String) : String :=
  joinSep " " (pySplitWs s)

/-- Python `s.strip()`. -/
def pyStrip (s : String) : String :=
  String.mk (((s.data.dropWhile pyIsSpace).reverse.dropWhile pyIsSpace).reverse)

/-- Python `s.lower()` (ASCII case folding, which covers every string
the scraper handles). -/
def pyLower (s : String) : String := strToLower s

/-! ## Date-time values

`datetime.datetime` is modelled as a plain record of its components. -/

/-- A naive `datetime.datetime` value. -/
structure DateTime where
  year : Nat
  month : Nat
  day : Nat
  hour : Nat
  minute : Nat
  second : Nat
  microsecond : Nat
deriving Repr, DecidableEq

/-! ## Article model (`src/src/models/article.py`) -/

/-- The validated, canonical article record. -/
structure Article where
  id : String
  title : String
  url : String
  summary : Option String
  content : Option String
  author : Option String
  published_date : Option DateTime
  scraped_at : DateTime
  source_name : String
  source_url : String
  region : String
  categories : List String
  image_url : Option String
deriving Repr, DecidableEq

/-- `Article._generate_id`: first 16 hex digits of
`md5(f"{url}{title}")`. -/
def generate_id (url title : String) : String :=
  strTake (md5hex (url ++ title)) 16

/-- The keyword arguments accepted by the `Article` pydantic
constructor (fields not passed keep their Python defaults). -/
structure ArticleInput where
  id : Option String := none
  title : String
  url : String
  summary : Option String := none
  content : Option String := none
  author : Option String := none
  published_date : Option DateTime := none
  scraped_at : Option DateTime := none
  source_name : String
  source_url : String
  region : String
  categories : List String := []
  image_url : Option String := none
deriving Repr

/-- The `clean_title` / `clean_summary` pydantic validator:
`' '.join(v.strip().split())` when the value is non-empty. -/
def cleanFieldText (v : String) : String :=
  if v ≠ "" then pyCollapse v else v

/-- Construction of an `Article` (pydantic validation plus
`Article.__init__`): rejects a title outside 1..500 characters, a
summary above 2000, an author above 200 or a region outside
`{kenya, usa}` (case-insensitively, stored lower-case); cleans title
and summary; `scraped_at` defaults to `now`; when no id (or a falsy
empty id) was supplied, the id is derived from `(url, cleaned title)`. -/
def mkArticle (now : DateTime) (inp : ArticleInput) : Option Article :=
  if inp.title.length < 1 then none
  else if inp.title.length > 500 then none
  else if (inp.summary.map String.length).getD 0 > 2000 then none
  else if (inp.author.map String.length).getD 0 > 200 then none
  else if ¬ (pyLower inp.region = "kenya" ∨ pyLower inp.region = "usa") then none
  else
    let title := cleanFieldText inp.title
    let id :=
      match inp.id with
      | none => generate_id inp.url title
      | some s => if s = "" then generate_id inp.url title else s
    some
      { id := id
        title := title
        url := inp.url
        summary := inp.summary.map cleanFieldText
        content := inp.content
        author := inp.author
        published_date := inp.published_date
        scraped_at := inp.scraped_at.getD now
        source_name := inp.source_name
        source_url := inp.source_url
        region := pyLower inp.region
        categories := inp.categories
        image_url := inp.image_url }

/-! ## ArticleCollection (`src/src/models/article.py`) -/

/-- `ArticleCollection`: list of articles plus bookkeeping metadata. -/
structure ArticleCollection where
  articles : List Article := []
  total_count : Nat := 0
  scraped_at : DateTime
  sources_scraped : List String := []
  regions : List String := []
deriving Repr, DecidableEq

/-- A fresh `ArticleCollection()` created at time `now`. -/
def emptyCollection (now : DateTime) : ArticleCollection :=
  { articles := [], total_count := 0, scraped_at := now }

/-- Membership test used by Python `article not in self.articles`:
`Article.__eq__` compares ids only. -/
def articleMem (a : Article) (l : List Article) : Bool :=
  l.any (fun b => b.id == a.id)

/-- `ArticleCollection.add_article`: append unless an equal-id article
is already present, then refresh `total_count`. -/
def ArticleCollection.add_article (c : ArticleCollection) (a : Article) :
    ArticleCollection :=
  if articleMem a c.articles then c
  else
    { c with
      articles := c.articles ++ [a]
      total_count := (c.articles ++ [a]).length }

/-- `ArticleCollection.add_articles`: add each article in order. -/
def ArticleCollection.add_articles (c : ArticleCollection)
    (l : List Article) : ArticleCollection :=
  l.foldl ArticleCollection.add_article c

/-- The loop body of `ArticleCollection.deduplicate`: keep the first
occurrence of each id (`seen` is the set of ids already emitted). -/
def dedupById (seen : List String) : List Article → List Article
  | [] => []
  | a :: rest =>
      if seen.contains a.id then dedupById seen rest
      else a :: dedupById (a.id :: seen) rest

/-- `ArticleCollection.deduplicate`: drop later equal-id duplicates and
refresh `total_count`. -/
def ArticleCollection.deduplicate (c : ArticleCollection) :
    ArticleCollection :=
  let u := dedupById [] c.articles
  { c with articles := u, total_count := u.length }

/-! ## Text cleaning (`clean_text` in `src/src/utils/validators.py`)

The six removal regexes are deterministic (each requires a literal word
after optional whitespace), so they are embedded as explicit matchers;
`reSubAll` mirrors `re.sub(pattern, '', text)`, deleting every
non-overlapping leftmost match. -/

/-- Greedy `\s*`. -/
def skipWs (l : List Char) : List Char := l.dropWhile pyIsSpace

/-- Case-insensitive literal match, returning the rest on success. -/
def matchLitCI : List Char → List Char → Option (List Char)
  | [], l => some l
  | _, [] => none
  | p :: ps, c :: cs => if c.toLower = p.toLower then matchLitCI ps cs else none

/-- Optional single character (`c?` in a regex), case-insensitive. -/
def matchOptCI (ch : Char) : List Char → List Char
  | [] => []
  | c :: cs => if c.toLower = ch.toLower then cs else c :: cs

/-- Matcher for `\s*\[\.\.\.?\]` (that is, `[..]` or `[...]`). -/
def matchBracketDots (l : List Char) : Option (List Char) := do
  let l := skipWs l
  let l ← matchLitCI "[..".data l
  let l := matchOptCI '.' l
  matchLitCI "]".data l

/-- Matcher for `\s*WORD\.?` (used for `Read more`, `Continue reading`,
`Click here`). -/
def matchPhraseDot (word : String) (l : List Char) : Option (List Char) := do
  let l := skipWs l
  let l ← matchLitCI word.data l
  pure (matchOptCI '.' l)

/-- Matcher for `\s*Share this:?\s*`. -/
def matchShareThis (l : List Char) : Option (List Char) := do
  let l := skipWs l
  let l ← matchLitCI "Share this".data l
  pure (skipWs (matchOptCI ':' l))

/-- `re.sub(pattern, '', text)`: delete every leftmost non-overlapping
match.  `fuel` is structural-recursion fuel, always called with the
length of the text; every matcher above consumes at least one
character, so the fuel never runs out. -/
def reSubAll (try_ : List Char → Option (List Char)) :
    Nat → List Char → List Char
  | 0, l => l
  | _ + 1, [] => []
  | n + 1, c :: cs =>
      match try_ (c :: cs) with
      | some suffix => reSubAll try_ n suffix
      | none => c :: reSubAll try_ n cs

/-- Whole-string test for `^\s*Advertisement\s*$`. -/
def isAdvertisementOnly (l : List Char) : Bool :=
  match matchLitCI "Advertisement".data (skipWs l) with
  | some rest => skipWs rest = []
  | none => false

/-- Apply the six `patterns_to_remove` substitutions in source order. -/
def removePatterns (s : String) : String :=
  let l := s.data
  let l := reSubAll matchBracketDots l.length l
  let l := reSubAll (matchPhraseDot "Read more") l.length l
  let l := reSubAll (matchPhraseDot "Continue reading") l.length l
  let l := reSubAll (matchPhraseDot "Click here") l.length l
  let l := if isAdvertisementOnly l then [] else l
  let l := reSubAll matchShareThis l.length l
  String.mk l

/-- The fixed `html_entities` table, in source order. -/
def htmlEntities : List (String × String) :=
  [("&nbsp;", " "), ("&amp;", "&"), ("&lt;", "<"), ("&gt;", ">"),
   ("&quot;", "\""), ("&#39;", "\x27"), ("&mdash;", "—"), ("&ndash;", "–")]

/-- Sequential `str.replace` over the entity table. -/
def decodeEntities (s : String) : String :=
  htmlEntities.foldl (fun t p => strReplace t p.1 p.2) s

/-- Python `s[:n]` (prefix slice, including negative-index semantics). -/
def pyTakeSlice (s : String) (n : Int) : String :=
  if 0 ≤ n then String.mk (s.data.take n.toNat)
  else String.mk (s.data.take (s.length - min s.length n.natAbs))

/-- The length-independent part of `clean_text`: collapse whitespace,
delete the boilerplate patterns, decode the entity table, strip. -/
def cleanCore (text : String) : String :=
  pyStrip (decodeEntities (removePatterns (pyCollapse text)))

/-- `clean_text`: empty input gives the empty string; otherwise run the
cleaning pipeline and, when a truthy `max_length` is exceeded, truncate
to `text[:max_length - 3]` (Python slice semantics) plus `"..."`. -/
def clean_text (text : String) (max_length : Option Int := none) : String :=
  if text = "" then ""
  else
    let t := cleanCore text
    match max_length with
    | none => t
    | some m =>
        if m ≠ 0 ∧ m < (t.length : Int) then pyTakeSlice t (m - 3) ++ "..."
        else t

/-! ## URL handling (`normalize_url` in `src/src/utils/validators.py`)

`urllib.parse.urljoin` is external standard-library code; it is
modelled here following its reference algorithm (scheme/netloc/path
splitting, dot-segment resolution), restricted to the split into
scheme, netloc, path, query and fragment (the rarely used `;params`
component is folded into the path). -/

/-- Split a leading `scheme:` when the prefix is a syntactically valid
scheme; the scheme is lower-cased, as in `urllib.parse`. -/
def splitScheme (s : String) : Option (String × String) :=
  match s.data.findIdx? (fun c => c = ':') with
  | none => none
  | some i =>
      let sc := s.data.take i
      let rest := s.data.drop (i + 1)
      match sc with
      | [] => none
      | c :: cs =>
          if c.isAlpha ∧ cs.all (fun x => x.isAlphanum ∨ x = '+' ∨ x = '-' ∨ x = '.')
          then some (String.mk (sc.map Char.toLower), String.mk rest)
          else none

/-- Split components of a URL: `(scheme, netloc, path, query,
fragment)`, models `urllib.parse.urlsplit` with an optional default
scheme. -/
def urlsplitD (s : String) (defaultScheme : String) :
    String × String × String × String × String :=
  let (scheme, rest) :=
    match splitScheme s with
    | some (sc, r) => (sc, r)
    | none => (defaultScheme, s)
  let (netloc, rest) :=
    if strStartsWith rest "//" then
      let r2 := strDrop rest 2
      let n := String.mk (r2.data.takeWhile
        (fun c => ¬ (c = '/' ∨ c = '?' ∨ c = '#')))
      (n, strDrop r2 n.length)
    else ("", rest)
  let (rest, fragment) :=
    match rest.data.findIdx? (fun c => c = '#') with
    | none => (rest, "")
    | some i => (String.mk (rest.data.take i), String.mk (rest.data.drop (i + 1)))
  let (path, query) :=
    match rest.data.findIdx? (fun c => c = '?') with
    | none => (rest, "")
    | some i => (String.mk (rest.data.take i), String.mk (rest.data.drop (i + 1)))
  (scheme, netloc, path, query, fragment)

/-- Reassemble split components, models `urllib.parse.urlunsplit`. -/
def urlunsplit (scheme netloc path query fragment : String) : String :=
  let u :=
    if netloc ≠ "" ∨ strStartsWith path "//" then
      "//" ++ netloc ++
        (if path ≠ "" ∧ ¬ strStartsWith path "/" then "/" ++ path else path)
    else path
  let u := if scheme ≠ "" then scheme ++ ":" ++ u else u
  let u := if query ≠ "" then u ++ "?" ++ query else u
  if fragment ≠ "" then u ++ "#" ++ fragment else u

/-- The `uses_relative` scheme list of `urllib.parse`. -/
def usesRelative : List String :=
  ["", "ftp", "http", "gopher", "nntp", "imap", "wais", "file", "https",
   "shttp", "mms", "prospero", "rtsp", "rtspu", "sftp", "svn", "svn+ssh",
   "ws", "wss"]

/-- The `uses_netloc` scheme list of `urllib.parse` (the members
relevant to relative resolution). -/
def usesNetloc : List String :=
  ["", "ftp", "http", "gopher", "nntp", "telnet", "imap", "wais", "file",
   "mms", "https", "shttp", "snews", "prospero", "rtsp", "rtspu", "rsync",
   "svn", "svn+ssh", "sftp", "nfs", "git", "git+ssh", "ws", "wss"]

/-- Keep the first and last segment, drop empty interior segments
(models `segments[1:-1] = filter(None, segments[1:-1])`). -/
def filterInterior (l : List String) : List String :=
  match l with
  | [] => []
  | [x] => [x]
  | x :: y :: xs =>
      x :: (((y :: xs).dropLast.filter (fun s => s ≠ "")) ++
        [(y :: xs).getLast (by simp)])

/-- Resolve `.` and `..` segments (the loop body of `urljoin`). -/
def resolveSegments (segs : List String) : List String :=
  segs.foldl
    (fun acc seg =>
      if seg = ".." then acc.dropLast
      else if seg = "." then acc
      else acc ++ [seg]) []

/-- Models `urllib.parse.urljoin(base, url)`. -/
def urljoin (base url : String) : String :=
  if base = "" then url
  else if url = "" then base
  else
    let (bscheme, bnetloc, bpath, bquery, _) := urlsplitD base ""
    let (scheme, netloc, path, query, fragment) := urlsplitD url bscheme
    if scheme ≠ bscheme ∨ ¬ usesRelative.contains scheme then url
    else
      let (netloc, done) :=
        if usesNetloc.contains scheme then
          if netloc ≠ "" then (netloc, true) else (bnetloc, false)
        else (netloc, false)
      if done then urlunsplit scheme netloc path query fragment
      else if path = "" then
        urlunsplit scheme netloc bpath (if query = "" then bquery else query) fragment
      else
        let baseParts :=
          let p := splitOnChar '/' bpath
          if p.getLastD "" ≠ "" then p.dropLast else p
        let segments :=
          if strStartsWith path "/" then splitOnChar '/' path
          else filterInterior (baseParts ++ splitOnChar '/' path)
        let resolved := resolveSegments segments
        let resolved :=
          if segments.getLast? = some "." ∨ segments.getLast? = some ".." then
            resolved ++ [""]
          else resolved
        let joined := joinSep "/" resolved
        urlunsplit scheme netloc (if joined = "" then "/" else joined) query fragment

/-- The `# Ensure https` step: rewrite a leading `http://` to
`https://`. -/
def forceHttps (u : String) : String :=
  if strStartsWith u "http://" then "https://" ++ strDrop u 7 else u

/-- `normalize_url`: `None` for empty input, strip, resolve against a
truthy `base_url` when the input does not start with `http://` or
`https://`, then force `http://` to `https://`. -/
def normalize_url (url : String) (base_url : Option String := none) :
    Option String :=
  if url = "" then none
  else
    let u := pyStrip url
    let u :=
      if (base_url.getD "") ≠ "" ∧
          ¬ (strStartsWith u "http://" ∨ strStartsWith u "https://") then
        urljoin (base_url.getD "") u
      else u
    some (forceHttps u)

/-! ## Calendar arithmetic (models `datetime` subtraction)

Proleptic Gregorian day numbering via the standard civil-from-days /
days-from-civil algorithms (truncating integer division, as in the
reference formulation). -/

/-- Leap-year test. -/
def isLeapYear (y : Int) : Bool :=
  y % 4 = 0 ∧ (y % 100 ≠ 0 ∨ y % 400 = 0)

/-- Length of a month. -/
def daysInMonth (y : Int) (m : Nat) : Nat :=
  [31, if isLeapYear y then 29 else 28,
   31, 30, 31, 30, 31, 31, 30, 31, 30, 31].getD (m - 1) 0

/-- Days since 1970-01-01 of a civil date. -/
def daysFromCivil (year : Int) (month day : Nat) : Int :=
  let y := year - (if month ≤ 2 then 1 else 0)
  let era := (if 0 ≤ y then y else y - 399) / 400
  let yoe := (y - era * 400).toNat
  let mp := (month + 9) % 12
  let doy := (153 * mp + 2) / 5 + day - 1
  let doe := yoe * 365 + yoe / 4 - yoe / 100 + doy
  era * 146097 + (doe : Int) - 719468

/-- Civil date of a day count since 1970-01-01. -/
def civilFromDays (z0 : Int) : Int × Nat × Nat :=
  let z := z0 + 719468
  let era := (if 0 ≤ z then z else z - 146096) / 146097
  let doe := (z - era * 146097).toNat
  let yoe := (doe - doe / 1460 + doe / 36524 - doe / 146096) / 365
  let doy := doe - (365 * yoe + yoe / 4 - yoe / 100)
  let mp := (5 * doy + 2) / 153
  let d := doy - (153 * mp + 2) / 5 + 1
  let m := if mp < 10 then mp + 3 else mp - 9
  (era * 400 + yoe + (if m ≤ 2 then 1 else 0), m, d)

/-- Microseconds since the epoch of a `DateTime`. -/
def dtToMicros (dt : DateTime) : Int :=
  daysFromCivil dt.year dt.month dt.day * 86400000000 +
    ((dt.hour * 3600 + dt.minute * 60 + dt.second) * 1000000 + dt.microsecond)

/-- `dt - timedelta(...)` where the delta is given in microseconds:
fails with `OverflowError` exactly when the `timedelta` constructor
(normalised day count beyond 999999999) or the resulting `datetime`
(year outside 1..9999) would raise in Python. -/
def pySubTimedelta (dt : DateTime) (micros : Int) : Except String DateTime :=
  if 999999999 < (micros.fdiv 86400000000).natAbs then .error "OverflowError"
  else
    let t := dtToMicros dt - micros
    let (y, m, d) := civilFromDays (t.fdiv 86400000000)
    if y < 1 ∨ 9999 < y then .error "OverflowError"
    else
      let rem := (t.fmod 86400000000).toNat
      .ok { year := y.toNat, month := m, day := d,
            hour := rem / 3600000000,
            minute := rem % 3600000000 / 60000000,
            second := rem % 60000000 / 1000000,
            microsecond := rem % 1000000 }

/-- `now.replace(hour=0, minute=0, second=0)` — note the code keeps the
microsecond field. -/
def replaceMidnight (dt : DateTime) : DateTime :=
  { dt with hour := 0, minute := 0, second := 0 }

/-! ## Date parsing (`parse_date` in `src/src/utils/validators.py`) -/

/-- Digit run at the head of the input: value and rest, `none` when the
head is not a digit (`\d+`). -/
def matchDigits (l : List Char) : Option (Nat × List Char) :=
  let ds := l.takeWhile Char.isDigit
  if ds = [] then none
  else some (ds.foldl (fun a c => 10 * a + (c.toNat - 48)) 0, l.drop ds.length)

/-- Anchored matcher for `(\d+)\s*UNIT s?\s*ago`. -/
def matchAgo (unit : String) (l : List Char) : Option Nat := do
  let (n, l) ← matchDigits l
  let l := skipWs l
  let l ← matchLitCI unit.data l
  let l := matchOptCI 's' l
  let l := skipWs l
  let _ ← matchLitCI "ago".data l
  pure n

/-- Anchored matcher for `just\s*now`. -/
def matchJustNow (l : List Char) : Option Unit := do
  let l ← matchLitCI "just".data l
  let _ ← matchLitCI "now".data (skipWs l)
  pure ()

/-- `re.search`: try the anchored matcher at every position, left to
right. -/
def searchAt {α : Type} (try_ : List Char → Option α) : List Char → Option α
  | [] => try_ []
  | c :: cs =>
      match try_ (c :: cs) with
      | some v => some v
      | none => searchAt try_ cs

/-- The `relative_patterns` table of `parse_date`, searched in source
(insertion) order; `some r` means some pattern matched and its handler
produced `r` (possibly an `OverflowError`). -/
def tryRelative (now : DateTime) (s : String) :
    Option (Except String DateTime) :=
  let l := s.data
  match searchAt (matchAgo "minute") l with
  | some n => some (pySubTimedelta now (n * 60000000))
  | none =>
  match searchAt (matchAgo "hour") l with
  | some n => some (pySubTimedelta now (n * 3600000000))
  | none =>
  match searchAt (matchAgo "day") l with
  | some n => some (pySubTimedelta now (n * 86400000000))
  | none =>
  match searchAt matchJustNow l with
  | some _ => some (.ok now)
  | none =>
  match searchAt (matchLitCI "today".data) l with
  | some _ => some (.ok (replaceMidnight now))
  | none =>
  match searchAt (matchLitCI "yesterday".data) l with
  | some _ => some ((pySubTimedelta now 86400000000).map replaceMidnight)
  | none => none

/-! ### `strptime` over the fixed `date_formats` list

Models CPython `_strptime` for the directives these nine formats use:
`%Y` is exactly four digits; `%m`, `%d`, `%H`, `%M`, `%S` accept one or
two digits within the ranges of the corresponding `_strptime` regexes;
`%B` is a full English month name, case-insensitive; any other format
character must match literally, and the whole input must be consumed.
The resulting `datetime` construction then validates day-of-month and
rejects leap seconds. -/

/-- Format directives appearing in the `date_formats` list. -/
inductive FmtTok where
  | year | month | day | hour | minute | second | monthName
  | ws
  | lit (c : Char)
deriving Repr, DecidableEq

/-- Two-digits-then-one-digit numeric field: take two digits when their
value passes `ok2`, else one digit passing `ok1`. -/
def matchNum2 (ok2 ok1 : Nat → Bool) (l : List Char) :
    Option (Nat × List Char) :=
  match l with
  | c1 :: c2 :: rest =>
      if c1.isDigit ∧ c2.isDigit ∧
          ok2 ((c1.toNat - 48) * 10 + (c2.toNat - 48)) then
        some ((c1.toNat - 48) * 10 + (c2.toNat - 48), rest)
      else if c1.isDigit ∧ ok1 (c1.toNat - 48) then
        some (c1.toNat - 48, c2 :: rest)
      else none
  | [c1] =>
      if c1.isDigit ∧ ok1 (c1.toNat - 48) then some (c1.toNat - 48, [])
      else none
  | [] => none

/-- English month names, in month order. -/
def monthNames : List String :=
  ["January", "February", "March", "April", "May", "June", "July",
   "August", "September", "October", "November", "December"]

/-- Match a full month name (case-insensitive), returning its number. -/
def matchMonthName (l : List Char) : Option (Nat × List Char) :=
  (List.range 12).foldr
    (fun i acc =>
      match matchLitCI (monthNames.getD i "").data l with
      | some rest => some (i + 1, rest)
      | none => acc) none

/-- Partial parse state for `strptime`. -/
structure TM where
  year : Nat := 1900
  month : Nat := 1
  day : Nat := 1
  hour : Nat := 0
  minute : Nat := 0
  second : Nat := 0
deriving Repr, DecidableEq

/-- Run a token list over the input. -/
def runFmt : List FmtTok → List Char → TM → Option TM
  | [], [], tm => some tm
  | [], _ :: _, _ => none
  | tok :: toks, l, tm =>
      match tok with
      | .year =>
          match l with
          | c1 :: c2 :: c3 :: c4 :: rest =>
              if c1.isDigit ∧ c2.isDigit ∧ c3.isDigit ∧ c4.isDigit then
                runFmt toks rest
                  { tm with year := ((c1.toNat - 48) * 10 + (c2.toNat - 48)) * 100 +
                      (c3.toNat - 48) * 10 + (c4.toNat - 48) }
              else none
          | _ => none
      | .month =>
          match matchNum2 (fun v => 1 ≤ v ∧ v ≤ 12) (fun v => 1 ≤ v) l with
          | some (v, rest) => runFmt toks rest { tm with month := v }
          | none => none
      | .day =>
          match matchNum2 (fun v => 1 ≤ v ∧ v ≤ 31) (fun v => 1 ≤ v) l with
          | some (v, rest) => runFmt toks rest { tm with day := v }
          | none => none
      | .hour =>
          match matchNum2 (fun v => v ≤ 23) (fun _ => true) l with
          | some (v, rest) => runFmt toks rest { tm with hour := v }
          | none => none
      | .minute =>
          match matchNum2 (fun v => v ≤ 59) (fun _ => true) l with
          | some (v, rest) => runFmt toks rest { tm with minute := v }
          | none => none
      | .second =>
          match matchNum2 (fun v => v ≤ 61) (fun _ => true) l with
          | some (v, rest) => runFmt toks rest { tm with second := v }
          | none => none
      | .monthName =>
          match matchMonthName l with
          | some (v, rest) => runFmt toks rest { tm with month := v }
          | none => none
      | .ws =>
          match l with
          | x :: rest =>
              if pyIsSpace x then runFmt toks (rest.dropWhile pyIsSpace) tm
              else none
          | [] => none
      | .lit c =>
          match l with
          | x :: rest => if x.toLower = c.toLower then runFmt toks rest tm else none
          | [] => none

/-- `datetime.strptime(s, fmt)` for one tokenised format: parse, then
validate through the `datetime` constructor (`MINYEAR = 1` and
`MAXYEAR = 9999` year bounds, day against the month length, and no
leap seconds); a constructor `ValueError` is the `none` case, matching
the `except ValueError: continue` around each `strptime` call. -/
def strptimeTok (toks : List FmtTok) (s : String) : Option DateTime :=
  match runFmt toks s.data {} with
  | none => none
  | some tm =>
      if 1 ≤ tm.year ∧ tm.year ≤ 9999 ∧
          1 ≤ tm.day ∧ tm.day ≤ daysInMonth tm.year tm.month ∧ tm.second ≤ 59 then
        some { year := tm.year, month := tm.month, day := tm.day,
               hour := tm.hour, minute := tm.minute, second := tm.second,
               microsecond := 0 }
      else none

/-- The `date_formats` list, tokenised, in source order. -/
def dateFormats : List (List FmtTok) :=
  [[.year, .lit '-', .month, .lit '-', .day, .lit 'T', .hour, .lit ':',
    .minute, .lit ':', .second],
   [.year, .lit '-', .month, .lit '-', .day, .lit 'T', .hour, .lit ':',
    .minute, .lit ':', .second, .lit 'Z'],
   [.year, .lit '-', .month, .lit '-', .day, .ws, .hour, .lit ':',
    .minute, .lit ':', .second],
   [.year, .lit '-', .month, .lit '-', .day],
   [.day, .ws, .monthName, .ws, .year],
   [.monthName, .ws, .day, .lit ',', .ws, .year],
   [.day, .lit '/', .month, .lit '/', .year],
   [.month, .lit '/', .day, .lit '/', .year],
   [.day, .lit '-', .month, .lit '-', .year]]

/-- The final loop of `parse_date`: first format that parses. -/
def tryFormats (s : String) : Option DateTime :=
  dateFormats.foldr
    (fun toks acc =>
      match strptimeTok toks s with
      | some d => some d
      | none => acc) none

/-- `parse_date`: empty input gives `None`; otherwise strip, try the
relative-phrase patterns (whose handlers can raise `OverflowError`),
then the external fuzzy parser (`dateutil`, modelled by the `fuzzy`
argument, with its internal exceptions already absorbed to `none` by
the surrounding `try`), then the fixed format list; `None` when
everything fails. -/
def parse_date (now : DateTime) (fuzzy : String → Option DateTime)
    (date_string : String) : Except String (Option DateTime) :=
  if date_string = "" then .ok none
  else
    let t := pyStrip date_string
    match tryRelative now t with
    | some r => r.map some
    | none =>
        match fuzzy t with
        | some d => .ok (some d)
        | none => .ok (tryFormats t)

/-! ## Domain throttler (`src/src/utils/rate_limiter.py`)

Wall-clock time is modelled as `Rat`.  `throttle` is embedded as a pure
state transformer: given the current time `now` it returns the time the
call sleeps before returning, together with the updated throttler; the
recorded last-request time is the wake-up instant `now + wait`
(idealising the second `time.time()` call as reading exactly the
wake-up time). -/

/-- `_get_domain`: `urlparse(url).netloc` — the host part only, without
the scheme. -/
def throttlerDomain (url : String) : String :=
  (urlsplitD url "").2.1

/-- The `(scheme, host)` pair of a URL, as the spec's notion of
"domain (scheme+host)" reads. -/
def schemeHost (url : String) : String × String :=
  ((urlsplitD url "").1, (urlsplitD url "").2.1)

/-- Association-list lookup (models Python `dict.get`). -/
def assocGet (l : List (String × Rat)) (k : String) : Option Rat :=
  (l.find? (fun p => p.1 == k)).map (fun p => p.2)

/-- Association-list update (models Python `dict.__setitem__`). -/
def assocSet (l : List (String × Rat)) (k : String) (v : Rat) :
    List (String × Rat) :=
  if l.any (fun p => p.1 == k) then
    l.map (fun p => if p.1 == k then (k, v) else p)
  else l ++ [(k, v)]

/-- `DomainThrottler` state. -/
structure DomainThrottler where
  default_delay : Rat
  domain_delays : List (String × Rat) := []
  last_request : List (String × Rat) := []
deriving Repr, DecidableEq

/-- `DomainThrottler.set_domain_delay`. -/
def DomainThrottler.set_domain_delay (th : DomainThrottler)
    (domain : String) (delay : Rat) : DomainThrottler :=
  { th with domain_delays := assocSet th.domain_delays domain delay }

/-- The delay applied to a domain:
`self.domain_delays.get(domain, self.default_delay)`. -/
def DomainThrottler.delayFor (th : DomainThrottler) (domain : String) : Rat :=
  (assocGet th.domain_delays domain).getD th.default_delay

/-- `DomainThrottler.throttle`: sleep until `delay` has elapsed since
the last recorded request to the url's domain, then record the wake-up
time for that domain.  Returns `(sleep duration, new state)`. -/
def DomainThrottler.throttle (th : DomainThrottler) (url : String)
    (now : Rat) : Rat × DomainThrottler :=
  let domain := throttlerDomain url
  let delay := th.delayFor domain
  let wait :=
    match assocGet th.last_request domain with
    | some last => if now - last < delay then delay - (now - last) else 0
    | none => 0
  (wait, { th with last_request := assocSet th.last_request domain (now + wait) })

/-! ## Per-source scrape strategy (`KenyaScraper.scrape` /
`USAScraper.scrape`)

The network-dependent steps `_scrape_rss` and `_scrape_html` are
modelled by their result lists (each already has every malformed
entry/container skipped); `scrape` is the strategy-selection and
truncation logic layered on top, exactly as in both region scrapers. -/

/-- `SETTINGS['max_articles_per_source']` in `config/settings.py`. -/
def max_articles_per_source : Nat := 50

/-- `scrape()`: collect RSS results when a feed is configured and the
RSS step yielded anything; fall back to the HTML step when the
collection is still empty; truncate to the configured maximum. -/
def scrape (rss_feed : Option String) (rssArticles htmlArticles : List Article)
    (maxPerSource : Nat) : List Article :=
  let articles :=
    if rss_feed.isSome ∧ rssArticles ≠ [] then rssArticles else []
  let articles := if articles = [] then htmlArticles else articles
  articles.take maxPerSource

/-! ## Orchestrator (`scrape_kenya_news` / `scrape_usa_news` and
`NewsScraper.scrape_all` in `src/src/scraper.py`)

Each source's `scraper.scrape()` call is modelled by an
`Except String (List Article)` — `error` when the scraper raised.  The
region loop catches and merely logs per-source exceptions, so it is a
total function of the outcomes; consequently the body of the outer
`try` in `scrape_all` cannot raise and `stats['errors']` never receives
an entry from a failing source. -/

/-- `scrape_kenya_news` / `scrape_usa_news`: extend with each source's
articles, skipping (logging only) sources that raised. -/
def scrape_region_news (results : List (Except String (List Article))) :
    List Article :=
  results.foldl
    (fun acc r =>
      match r with
      | .ok articles => acc ++ articles
      | .error _ => acc) []

/-- The run-statistics record kept by `NewsScraper`. -/
structure RunStats where
  total_articles : Nat
  by_region : List (String × Nat)
  errors : List String
deriving Repr, DecidableEq

/-- `NewsScraper.scrape_all`: concatenate both regions, add to the
collection, deduplicate, and compile stats.  The region helpers swallow
per-source exceptions, so the outer `except` never appends to
`errors`. -/
def scrape_all (now : DateTime)
    (kenyaResults usaResults : List (Except String (List Article))) :
    List Article × RunStats :=
  let kenya_articles := scrape_region_news kenyaResults
  let usa_articles := scrape_region_news usaResults
  let coll := ((emptyCollection now).add_articles
    (kenya_articles ++ usa_articles)).deduplicate
  (coll.articles,
   { total_articles := coll.total_count
     by_region := [("kenya", kenya_articles.length), ("usa", usa_articles.length)]
     errors := [] })

/-! ## CSV export (`src/src/exporters/csv_exporter.py`)

`CSVExporter.export` writes one row per article via `_article_to_row`;
the `csv` module itself is external standard-library code that
transports any list of string fields losslessly, so rows are modelled
at the field-list level. -/

/-- The decimal digit character of `k % 10`. -/
def digitChar (k : Nat) : Char := Char.ofNat (48 + k % 10)

/-- Two zero-padded decimal digits. -/
def pad2 (n : Nat) : List Char := [digitChar (n / 10), digitChar n]

/-- Four zero-padded decimal digits. -/
def pad4 (n : Nat) : List Char :=
  [digitChar (n / 1000), digitChar (n / 100), digitChar (n / 10), digitChar n]

/-- Six zero-padded decimal digits. -/
def pad6 (n : Nat) : List Char :=
  [digitChar (n / 100000), digitChar (n / 10000), digitChar (n / 1000),
   digitChar (n / 100), digitChar (n / 10), digitChar n]

/-- `datetime.isoformat()`: `YYYY-MM-DDTHH:MM:SS` with `.ffffff`
appended only when the microsecond field is non-zero. -/
def isoformat (dt : DateTime) : String :=
  String.mk
    (pad4 dt.year ++ ('-' :: (pad2 dt.month ++ ('-' :: (pad2 dt.day ++
      ('T' :: (pad2 dt.hour ++ (':' :: (pad2 dt.minute ++ (':' ::
      (pad2 dt.second ++
        (if dt.microsecond = 0 then []
         else '.' :: pad6 dt.microsecond))))))))))))

/-- `CSVExporter._article_to_row`, as the ordered list of the 12
`HEADERS` fields (falsy optionals become empty strings, categories are
pipe-joined). -/
def article_to_row (a : Article) : List String :=
  [a.id, a.title, a.url, a.summary.getD "", a.author.getD "",
   (a.published_date.map isoformat).getD "", isoformat a.scraped_at,
   a.source_name, a.source_url, a.region,
   joinSep "|" a.categories, a.image_url.getD ""]

/-- Decimal value of a digit character. -/
def digitVal (c : Char) : Option Nat :=
  if 48 ≤ c.toNat ∧ c.toNat ≤ 57 then some (c.toNat - 48) else none

/-- Parse exactly two digits. -/
def parse2 : List Char → Option (Nat × List Char)
  | c1 :: c2 :: rest => do
      let a ← digitVal c1
      let b ← digitVal c2
      pure (10 * a + b, rest)
  | _ => none

/-- Parse exactly four digits. -/
def parse4 : List Char → Option (Nat × List Char)
  | c1 :: c2 :: c3 :: c4 :: rest => do
      let a ← digitVal c1
      let b ← digitVal c2
      let c ← digitVal c3
      let d ← digitVal c4
      pure (((10 * a + b) * 10 + c) * 10 + d, rest)
  | _ => none

/-- Parse exactly six digits. -/
def parse6 : List Char → Option (Nat × List Char)
  | c1 :: c2 :: c3 :: c4 :: c5 :: c6 :: rest => do
      let a ← digitVal c1
      let b ← digitVal c2
      let c ← digitVal c3
      let d ← digitVal c4
      let e ← digitVal c5
      let f ← digitVal c6
      pure (((((10 * a + b) * 10 + c) * 10 + d) * 10 + e) * 10 + f, rest)
  | _ => none

/-- Expect one specific character. -/
def expectChar (c : Char) : List Char → Option (List Char)
  | x :: rest => if x = c then some rest else none
  | [] => none

/-- Modelled from the spec: the repository ships no CSV reader, so the
round-trip's "re-parsing" step has no source counterpart; this inverts
`isoformat` on its exact output shape. -/
def parseIso (s : String) : Option DateTime := do
  let l := s.data
  let (y, l) ← parse4 l
  let l ← expectChar '-' l
  let (mo, l) ← parse2 l
  let l ← expectChar '-' l
  let (d, l) ← parse2 l
  let l ← expectChar 'T' l
  let (h, l) ← parse2 l
  let l ← expectChar ':' l
  let (mi, l) ← parse2 l
  let l ← expectChar ':' l
  let (sec, l) ← parse2 l
  match l with
  | [] => pure ⟨y, mo, d, h, mi, sec, 0⟩
  | _ =>
      let l ← expectChar '.' l
      let (us, l) ← parse6 l
      if l = [] then pure ⟨y, mo, d, h, mi, sec, us⟩ else none

/-- Modelled from the spec: the repository ships no CSV reader, so this
re-parser inverts `_article_to_row` field by field — empty optional
columns become absent fields, the categories column is split on the
pipe, and the date columns are ISO-parsed (`content` is not persisted
in the CSV and is reconstructed as absent). -/
def rowToArticle (r : List String) : Option Article :=
  match r with
  | [id, title, url, summary, author, pub, scraped, source_name,
     source_url, region, cats, image_url] => do
      let scrapedDt ← parseIso scraped
      let pubDt ←
        if pub = "" then pure (none : Option DateTime)
        else (parseIso pub).map some
      pure
        { id := id, title := title, url := url
          summary := if summary = "" then none else some summary
          content := none
          author := if author = "" then none else some author
          published_date := pubDt
          scraped_at := scrapedDt
          source_name := source_name, source_url := source_url
          region := region
          categories := if cats = "" then [] else splitOnChar '|' cats
          image_url := if image_url = "" then none else some image_url }
  | _ => none

/-- Well-formedness of a `DateTime` as a Python `datetime` carries it:
every component fits its printed width. -/
def DateTime.wf (dt : DateTime) : Bool :=
  dt.year < 10000 && dt.month < 100 && dt.day < 100 && dt.hour < 100 &&
    dt.minute < 100 && dt.second < 100 && dt.microsecond < 1000000

/-- Both date fields of an article are well-formed. -/
def Article.wfDates (a : Article) : Bool :=
  a.scraped_at.wf && a.published_date.all DateTime.wf

/-! ## Supporting lemmas -/

/-- The id produced by construction when no (truthy) id is supplied. -/
theorem mkArticle_id_eq (now : DateTime) (inp : ArticleInput) (a : Article)
    (hid : inp.id = none ∨ inp.id = some "")
    (e : mkArticle now inp = some a) :
    a.id = generate_id inp.url (cleanFieldText inp.title) := by
  unfold mkArticle at e
  split at e; case isTrue => exact Option.noConfusion e
  split at e; case isTrue => exact Option.noConfusion e
  split at e; case isTrue => exact Option.noConfusion e
  split at e; case isTrue => exact Option.noConfusion e
  split at e; case isTrue => exact Option.noConfusion e
  simp only [Option.some.injEq] at e
  subst e
  rcases hid with h | h <;> simp [h]

/-- `add_article` restores the count equation on the append branch and
preserves it on the skip branch. -/
theorem add_article_count (c : ArticleCollection) (a : Article)
    (h : c.total_count = c.articles.length) :
    (c.add_article a).total_count = (c.add_article a).articles.length := by
  unfold ArticleCollection.add_article
  split <;> simp [h]

/-- `add_articles` preserves the count equation. -/
theorem add_articles_count (l : List Article) (c : ArticleCollection)
    (h : c.total_count = c.articles.length) :
    (c.add_articles l).total_count = (c.add_articles l).articles.length := by
  induction l generalizing c with
  | nil => simpa [ArticleCollection.add_articles] using h
  | cons a t ih =>
      have := add_article_count c a h
      simpa [ArticleCollection.add_articles, List.foldl_cons] using
        ih (c.add_article a) this

end NewsScraper

namespace NewsScraper

/-! ## Claim C1 -/

/-- Construction time used by the concrete instances below. -/
def cNow : DateTime := ⟨2025, 3, 1, 10, 30, 0, 0⟩

/-- First article input of the duplicate pair: same `(url, title)` as
`cInp2`, different summary. -/
def cInp1 : ArticleInput :=
  { title := "Test Article", url := "https://example.com/article/1",
    summary := some "first summary", source_name := "Test Source",
    source_url := "https://example.com", region := "kenya" }

/-- Second article input of the duplicate pair. -/
def cInp2 : ArticleInput :=
  { title := "Test Article", url := "https://example.com/article/1",
    summary := some "second summary", source_name := "Test Source",
    source_url := "https://example.com", region := "kenya" }

/-- C1, counterexample: two articles built from the same `(url, title)`
pair with different summaries; after adding both, the single surviving
entry carries the FIRST summary, not the last-added one, so the
last-write-wins half of the claim is false. -/
theorem C1_counterexample :
    ((mkArticle cNow cInp1).bind fun a1 =>
      (mkArticle cNow cInp2).map fun a2 =>
        (((emptyCollection cNow).add_article a1).add_article a2).articles.map
          Article.summary) = some [some "first summary"]
    ∧ some "first summary" ≠ some "second summary" := by
  constructor
  · decide
  · decide

/-- C1 (amended): adding two articles with equal id (as produced from
an equal `(url, title)` pair) leaves exactly one entry with that id,
and the survivor is the FIRST-added article (first-write-wins: the
second add is a no-op, and the deduplication pass keeps the first
occurrence). -/
theorem collection_dedup_first_write_wins (now : DateTime) (a1 a2 : Article)
    (h : a1.id = a2.id) :
    (((emptyCollection now).add_article a1).add_article a2).articles = [a1]
    ∧ ({ emptyCollection now with
          articles := [a1, a2], total_count := 2 } : ArticleCollection
        ).deduplicate.articles = [a1] := by
  constructor
  · simp [emptyCollection, ArticleCollection.add_article, articleMem, h]
  · simp [ArticleCollection.deduplicate, dedupById, h.symm]

/-- Concrete equal-id article literals for the C1 witness. -/
def cArtL1 : Article :=
  { id := "i1", title := "T", url := "u", summary := some "s1",
    content := none, author := none, published_date := none,
    scraped_at := cNow, source_name := "S", source_url := "u",
    region := "kenya", categories := [], image_url := none }

/-- Same id as `cArtL1`, different summary. -/
def cArtL2 : Article := { cArtL1 with summary := some "s2" }

/-- C1 witness at concrete articles. -/
theorem collection_dedup_first_write_wins_witness :
    (((emptyCollection cNow).add_article cArtL1).add_article cArtL2).articles
      = [cArtL1] :=
  (collection_dedup_first_write_wins cNow cArtL1 cArtL2 rfl).1

/-! ## Claim C2 -/

/-- C2: the id of a constructed article is a function of `(url, title)`
alone — two constructions from the same pair, with any other field
values and construction times, give the same id. -/
theorem article_id_deterministic (now1 now2 : DateTime)
    (i1 i2 : ArticleInput) (a1 a2 : Article)
    (hu : i1.url = i2.url) (ht : i1.title = i2.title)
    (h1 : i1.id = none ∨ i1.id = some "")
    (h2 : i2.id = none ∨ i2.id = some "")
    (e1 : mkArticle now1 i1 = some a1) (e2 : mkArticle now2 i2 = some a2) :
    a1.id = a2.id := by
  rw [mkArticle_id_eq now1 i1 a1 h1 e1, mkArticle_id_eq now2 i2 a2 h2 e2,
    hu, ht]

/-- A fallback article value (used only to state the C2 witness). -/
def dummyArticle : Article :=
  { id := "", title := "", url := "", summary := none, content := none,
    author := none, published_date := none, scraped_at := cNow,
    source_name := "", source_url := "", region := "kenya",
    categories := [], image_url := none }

/-- An input sharing `(url, title)` with `cInp1` but differing in every
other optional field. -/
def cInp3 : ArticleInput :=
  { title := "Test Article", url := "https://example.com/article/1",
    summary := some "another summary", author := some "Someone",
    source_name := "Other Source", source_url := "https://other.example",
    region := "USA", categories := ["x"], image_url := some "https://img" }

/-- C2 witness: two concrete constructions from the same pair. -/
theorem article_id_deterministic_witness :
    ((mkArticle cNow cInp1).getD dummyArticle).id
      = ((mkArticle ⟨2026, 1, 2, 3, 4, 5, 6⟩ cInp3).getD dummyArticle).id :=
  article_id_deterministic cNow ⟨2026, 1, 2, 3, 4, 5, 6⟩ cInp1 cInp3
    ((mkArticle cNow cInp1).getD dummyArticle)
    ((mkArticle ⟨2026, 1, 2, 3, 4, 5, 6⟩ cInp3).getD dummyArticle)
    rfl rfl (Or.inl rfl) (Or.inl rfl) (by decide) (by decide)

/-! ## Claim C10 -/

/-- C10: from any collection whose `total_count` equals the number of
stored articles, each operation (`add_article`, `add_articles`,
`deduplicate`) yields a collection where the equality still holds. -/
theorem collection_count_invariant (c : ArticleCollection)
    (h : c.total_count = c.articles.length) :
    (∀ a, (c.add_article a).total_count = (c.add_article a).articles.length)
    ∧ (∀ l, (c.add_articles l).total_count = (c.add_articles l).articles.length)
    ∧ c.deduplicate.total_count = c.deduplicate.articles.length := by
  refine ⟨fun a => add_article_count c a h,
    fun l => add_articles_count l c h, ?_⟩
  simp [ArticleCollection.deduplicate]

/-- C10 witness at a concrete collection and operations. -/
theorem collection_count_invariant_witness :
    ((emptyCollection cNow).add_article dummyArticle).total_count
      = ((emptyCollection cNow).add_article dummyArticle).articles.length
    ∧ ((emptyCollection cNow).add_articles
        [dummyArticle, dummyArticle]).total_count
      = ((emptyCollection cNow).add_articles
        [dummyArticle, dummyArticle]).articles.length
    ∧ (emptyCollection cNow).deduplicate.total_count
      = (emptyCollection cNow).deduplicate.articles.length := by
  obtain ⟨h1, h2, h3⟩ := collection_count_invariant (emptyCollection cNow) rfl
  exact ⟨h1 dummyArticle, h2 [dummyArticle, dummyArticle], h3⟩

/-! ## Claim C3 -/

/-- Skipping an `error` outcome leaves the region fold unchanged, for
any accumulator. -/
theorem foldl_extend_error (pre post : List (Except String (List Article)))
    (e : String) (acc : List Article) :
    (pre ++ Except.error e :: post).foldl
      (fun acc r =>
        match r with
        | .ok articles => acc ++ articles
        | .error _ => acc) acc
      = (pre ++ post).foldl
      (fun acc r =>
        match r with
        | .ok articles => acc ++ articles
        | .error _ => acc) acc := by
  induction pre generalizing acc with
  | nil => simp
  | cons r t ih => simp [List.foldl_cons, ih]

/-- C3, counterexample: a run over six sources where exactly one
scraper raises records NO entry in the run statistics' error list (the
region loop catches and only logs the exception; `stats['errors']` is
appended to only by the outer handler, which never fires), so the
claim's "exactly one entry" is false. -/
theorem C3_counterexample :
    (scrape_all cNow
      [Except.ok [cArtL1], Except.error "boom", Except.ok []]
      [Except.ok [], Except.ok [], Except.ok []]).2.errors.length = 0
    ∧ (0 : Nat) ≠ 1 :=
  ⟨rfl, by decide⟩

/-- C3 (amended): when exactly one source's scraper raises, the run
returns exactly the articles of the other N-1 sources (the exception
does not propagate), and the run statistics' error list stays empty —
the failure is logged, not recorded in the stats. -/
theorem scrape_all_isolates_failures (now : DateTime) (e : String)
    (pre post usaResults : List (Except String (List Article))) :
    scrape_region_news (pre ++ Except.error e :: post)
      = scrape_region_news (pre ++ post)
    ∧ (scrape_all now (pre ++ Except.error e :: post) usaResults).1
      = (scrape_all now (pre ++ post) usaResults).1
    ∧ (scrape_all now (pre ++ Except.error e :: post) usaResults).2.errors
      = [] := by
  have h1 : scrape_region_news (pre ++ Except.error e :: post)
      = scrape_region_news (pre ++ post) := by
    simp only [scrape_region_news]
    exact foldl_extend_error pre post e []
  refine ⟨h1, ?_, rfl⟩
  simp [scrape_all, h1]

/-! ## Claim C4 -/

/-- C4: `scrape` returns (a prefix of) the RSS articles whenever a feed
is configured and the RSS step yielded at least one article, performs
the HTML fallback exactly when the RSS step contributed nothing, and
never returns more than the configured per-source maximum. -/
theorem scrape_strategy (rss_feed : Option String)
    (rssArticles htmlArticles : List Article) (maxPerSource : Nat) :
    (scrape rss_feed rssArticles htmlArticles maxPerSource).length ≤ maxPerSource
    ∧ (rss_feed.isSome = true → rssArticles ≠ [] →
        scrape rss_feed rssArticles htmlArticles maxPerSource
          = rssArticles.take maxPerSource)
    ∧ ((rss_feed = none ∨ rssArticles = []) →
        scrape rss_feed rssArticles htmlArticles maxPerSource
          = htmlArticles.take maxPerSource) := by
  unfold scrape
  refine ⟨?_, ?_, ?_⟩
  · apply List.length_take_le
  · intro hf hne
    rcases rss_feed with _ | f
    · simp at hf
    · simp [hne]
  · rintro (h | h)
    · subst h; simp
    · subst h; cases rss_feed <;> simp

/-- C4 witness: RSS wins when it yields an article; HTML fallback when
no feed is configured; the settings maximum is 50. -/
theorem scrape_strategy_witness :
    scrape (some "https://feed") [cArtL1] [cArtL2] max_articles_per_source
      = [cArtL1]
    ∧ scrape none [cArtL1] [cArtL2] max_articles_per_source = [cArtL2] := by
  obtain ⟨-, h2, -⟩ :=
    scrape_strategy (some "https://feed") [cArtL1] [cArtL2]
      max_articles_per_source
  obtain ⟨-, -, h3⟩ :=
    scrape_strategy none [cArtL1] [cArtL2] max_articles_per_source
  exact ⟨(h2 rfl (by decide)).trans (by decide),
    (h3 (Or.inl rfl)).trans (by decide)⟩

/-! ## Claim C5 -/

/-- C5, counterexample: the claim says `parse_date` never raises, but a
relative phrase with a huge count makes the `timedelta` handler raise
`OverflowError`, which nothing in `parse_date` catches. -/
theorem C5_counterexample :
    parse_date cNow (fun _ => none) "999999999999 days ago"
      = Except.error "OverflowError" := rfl

/-- C5 (amended): `parse_date` returns `None` on empty input; otherwise
it strips the input, tries the relative-phrase table first (this is the
only step that can raise, via `OverflowError` on out-of-range
arithmetic), then the external fuzzy parser, then the fixed format
list, and returns `None` when every attempt fails. -/
theorem parse_date_attempt_order (now : DateTime)
    (fuzzy : String → Option DateTime) (s : String) :
    (s = "" → parse_date now fuzzy s = .ok none)
    ∧ (∀ d, s ≠ "" → tryRelative now (pyStrip s) = some (Except.ok d) →
        parse_date now fuzzy s = .ok (some d))
    ∧ (∀ d, s ≠ "" → tryRelative now (pyStrip s) = none →
        fuzzy (pyStrip s) = some d → parse_date now fuzzy s = .ok (some d))
    ∧ (s ≠ "" → tryRelative now (pyStrip s) = none → fuzzy (pyStrip s) = none →
        parse_date now fuzzy s = .ok (tryFormats (pyStrip s)))
    ∧ (∀ e, parse_date now fuzzy s = .error e →
        tryRelative now (pyStrip s) = some (Except.error e)) := by
  unfold parse_date
  by_cases hs : s = ""
  · subst hs
    exact ⟨fun _ => rfl, fun d h => absurd rfl h, fun d h => absurd rfl h,
      fun h => absurd rfl h, fun e he => Except.noConfusion he⟩
  · simp only [if_neg hs]
    refine ⟨fun h => absurd h hs, ?_, ?_, ?_, ?_⟩
    · intro d _ hrel
      simp [hrel, Except.map]
    · intro d _ hrel hfz
      simp [hrel, hfz]
    · intro _ hrel hfz
      simp [hrel, hfz]
    · intro e he
      cases hrel : tryRelative now (pyStrip s) with
      | some r =>
          cases r with
          | ok d => rw [hrel] at he; simp [Except.map] at he
          | error e2 =>
              rw [hrel] at he
              simp only [Except.map] at he
              cases he
              rfl
      | none =>
          rw [hrel] at he
          cases hfz : fuzzy (pyStrip s) <;> rw [hfz] at he <;> simp at he

/-- C5 witness: the relative branch, the fuzzy branch, the
all-formats-fail branch and the empty input, each at a concrete
string. -/
theorem parse_date_attempt_order_witness :
    parse_date cNow (fun _ => none) "2 hours ago"
      = .ok (some ⟨2025, 3, 1, 8, 30, 0, 0⟩)
    ∧ parse_date cNow (fun _ => some cNow) "garbage" = .ok (some cNow)
    ∧ parse_date cNow (fun _ => none) "zzz" = .ok none
    ∧ parse_date cNow (fun _ => none) "" = .ok none := by
  obtain ⟨-, h2, -, -, -⟩ :=
    parse_date_attempt_order cNow (fun _ => none) "2 hours ago"
  obtain ⟨-, -, h3, -, -⟩ :=
    parse_date_attempt_order cNow (fun _ => some cNow) "garbage"
  obtain ⟨-, -, -, h4, -⟩ := parse_date_attempt_order cNow (fun _ => none) "zzz"
  obtain ⟨h1, -, -, -, -⟩ := parse_date_attempt_order cNow (fun _ => none) ""
  refine ⟨h2 _ (by decide) (by rfl), h3 _ (by decide) (by rfl) rfl,
    (h4 (by decide) (by rfl) rfl).trans (by rfl), h1 rfl⟩

/-! ## Claim C6 -/

/-- C6, counterexample: with `maxLen = 2` the code computes
`text[:-1] + "..."`, which is neither "the first `maxLen - 3`
characters followed by an ellipsis" nor within the `maxLen` bound the
claim implies. -/
theorem C6_counterexample :
    clean_text "abcd" (some 2) = "abc..."
    ∧ "abc..." ≠ strTake (clean_text "abcd" none) 0 ++ "..."
    ∧ ¬ ((clean_text "abcd" (some 2)).length ≤ 2) := by
  refine ⟨by decide, by decide, by decide⟩

/-- C6 (amended): `clean_text` maps empty input to the empty string,
collapses and cleans as the two reference examples show, leaves the
cleaned text unchanged when a truthy `max_length` is not exceeded, and
for `max_length ≥ 3` truncates an exceeding result to the first
`max_length - 3` characters plus `"..."` (smaller positive bounds fall
into Python negative-slice behaviour instead). -/
theorem clean_text_spec :
    (∀ m, clean_text "" m = "")
    ∧ clean_text "  Multiple   spaces  " = "Multiple spaces"
    ∧ clean_text "Text with\n\nnewlines" = "Text with newlines"
    ∧ (∀ (s : String) (m : Int), 3 ≤ m → m < ((clean_text s none).length : Int) →
        clean_text s (some m)
          = strTake (clean_text s none) (m - 3).toNat ++ "...")
    ∧ (∀ (s : String) (m : Int), ((clean_text s none).length : Int) ≤ m →
        clean_text s (some m) = clean_text s none) := by
  refine ⟨fun m => rfl, by decide, by decide, ?_, ?_⟩
  · intro s m h3 hlen
    by_cases hs : s = ""
    · subst hs
      simp [clean_text] at hlen
      omega
    · have hnone : clean_text s none = cleanCore s := by
        simp [clean_text, hs]
      rw [hnone] at hlen ⊢
      simp only [clean_text, if_neg hs]
      rw [if_pos ⟨by omega, hlen⟩]
      unfold pyTakeSlice
      rw [if_pos (by omega : (0 : Int) ≤ m - 3)]
      rfl
  · intro s m hlen
    by_cases hs : s = ""
    · subst hs
      simp [clean_text]
    · have hnone : clean_text s none = cleanCore s := by
        simp [clean_text, hs]
      rw [hnone] at hlen ⊢
      simp only [clean_text, if_neg hs]
      split
      · omega
      · rfl

/-- C6 witness: a concrete truncation with `max_length = 10` and a
concrete non-truncation. -/
theorem clean_text_spec_witness :
    clean_text "abcdefghijkl" (some 10) = "abcdefg..."
    ∧ clean_text "abc" (some 10) = "abc" := by
  obtain ⟨-, -, -, h4, h5⟩ := clean_text_spec
  exact ⟨(h4 "abcdefghijkl" 10 (by decide) (by decide)).trans (by decide),
    (h5 "abc" 10 (by decide)).trans (by decide)⟩

/-! ## Claim C7 -/

/-- C7, counterexample: the input is stripped before any branch, so an
input with surrounding whitespace does NOT pass through unchanged as
the claim's final clause states. -/
theorem C7_counterexample :
    normalize_url "https://example.com " none = some "https://example.com"
    ∧ "https://example.com" ≠ "https://example.com " := by
  exact ⟨by decide, by decide⟩

/-- C7 (amended): `normalize_url` returns `None` for empty input; it
strips surrounding whitespace; when a truthy `baseUrl` is supplied and
the stripped input lacks an `http://`/`https://` prefix it resolves the
input against `baseUrl` (then forces https); every other input passes
through with only the strip and the `http://` → `https://` rewrite
applied; in particular `normalize_url "/path" "https://example.com"`
is `"https://example.com/path"`. -/
theorem normalize_url_spec (url : String) (base_url : Option String) :
    (url = "" → normalize_url url base_url = none)
    ∧ (url ≠ "" → (base_url.getD "") ≠ "" →
        ¬ (strStartsWith (pyStrip url) "http://" = true
            ∨ strStartsWith (pyStrip url) "https://" = true) →
        normalize_url url base_url
          = some (forceHttps (urljoin (base_url.getD "") (pyStrip url))))
    ∧ (url ≠ "" → ((base_url.getD "") = ""
        ∨ strStartsWith (pyStrip url) "http://" = true
        ∨ strStartsWith (pyStrip url) "https://" = true) →
        normalize_url url base_url = some (forceHttps (pyStrip url)))
    ∧ normalize_url "/path" (some "https://example.com")
        = some "https://example.com/path"
    ∧ normalize_url "http://example.com" none = some "https://example.com" := by
  refine ⟨?_, ?_, ?_, by decide, by decide⟩
  · intro h
    simp [normalize_url, h]
  · intro hne hb hpre
    simp only [normalize_url, if_neg hne]
    rw [if_pos ⟨hb, hpre⟩]
  · intro hne hcase
    simp only [normalize_url, if_neg hne]
    rw [if_neg ?_]
    rcases hcase with h | h
    · simp [h]
    · simp [h]

/-- C7 witness: the resolve branch and the pass-through branch at
concrete inputs. -/
theorem normalize_url_spec_witness :
    normalize_url "article/1" (some "https://example.com/news/")
      = some "https://example.com/news/article/1"
    ∧ normalize_url " ftp://x " none = some "ftp://x" := by
  obtain ⟨-, h2, -, -, -⟩ :=
    normalize_url_spec "article/1" (some "https://example.com/news/")
  obtain ⟨-, -, h3, -, -⟩ := normalize_url_spec " ftp://x " none
  exact ⟨(h2 (by decide) (by decide) (by decide)).trans (by decide),
    (h3 (by decide) (Or.inl (by decide))).trans (by decide)⟩

/-! ## Claim C8 -/

/-- Lookup after the in-place-update form of `assocSet` for a distinct
key. -/
theorem assocGetMap_ne (t : List (String × Rat)) (k k2 : String) (v : Rat)
    (hk : k2 ≠ k) :
    assocGet (t.map (fun p => if p.1 == k then (k, v) else p)) k2
      = assocGet t k2 := by
  have hkk2 : (k == k2) = false := by simpa using Ne.symm hk
  induction t with
  | nil => rfl
  | cons p t ih =>
      rw [List.map_cons]
      by_cases hp : (p.1 == k) = true
      · have h1 : p.1 = k := by simpa using hp
        have hpk2 : (p.1 == k2) = false := by rw [h1]; exact hkk2
        rw [if_pos hp]
        simp only [assocGet, List.find?, hkk2, hpk2]
        exact ih
      · rw [if_neg hp]
        cases hq : (p.1 == k2) <;> simp only [assocGet, List.find?, hq]
        exact ih

/-- Lookup after the append form of `assocSet` for a distinct key. -/
theorem assocGetAppend_ne (t : List (String × Rat)) (k k2 : String)
    (v : Rat) (hk : k2 ≠ k) :
    assocGet (t ++ [(k, v)]) k2 = assocGet t k2 := by
  have hkk2 : (k == k2) = false := by simpa using Ne.symm hk
  induction t with
  | nil => simp [assocGet, List.find?, hkk2]
  | cons p t ih =>
      rw [List.cons_append]
      cases hq : (p.1 == k2) <;> simp only [assocGet, List.find?, hq]
      exact ih

/-- Lookup of the updated key, in-place-update form. -/
theorem assocGetMap_self (t : List (String × Rat)) (k : String) (v : Rat)
    (h : t.any (fun p => p.1 == k) = true) :
    assocGet (t.map (fun p => if p.1 == k then (k, v) else p)) k
      = some v := by
  induction t with
  | nil => simp at h
  | cons p t ih =>
      rw [List.map_cons]
      by_cases hp : (p.1 == k) = true
      · rw [if_pos hp]
        simp [assocGet, List.find?]
      · have hpf : (p.1 == k) = false := by
          cases hpv : (p.1 == k) with
          | true => exact absurd hpv hp
          | false => rfl
        have hrest : t.any (fun p => p.1 == k) = true := by
          rw [List.any_cons, hpf, Bool.false_or] at h
          exact h
        rw [if_neg hp]
        simp only [assocGet, List.find?, hpf]
        exact ih hrest

/-- Lookup of the added key when it was absent, append form. -/
theorem assocGetAppend_self_of_absent (t : List (String × Rat))
    (k : String) (v : Rat) (h : t.any (fun p => p.1 == k) = false) :
    assocGet (t ++ [(k, v)]) k = some v := by
  induction t with
  | nil => simp [assocGet, List.find?]
  | cons p t ih =>
      have hp : (p.1 == k) = false := by
        cases hpv : (p.1 == k) with
        | true =>
            exfalso
            rw [List.any_cons, hpv, Bool.true_or] at h
            exact Bool.noConfusion h
        | false => rfl
      have ht : t.any (fun p => p.1 == k) = false := by
        rw [List.any_cons, hp, Bool.false_or] at h
        exact h
      rw [List.cons_append]
      simp only [assocGet, List.find?, hp]
      exact ih ht

/-- `assocSet` then lookup of the same key. -/
theorem assocGet_assocSet_self (l : List (String × Rat)) (k : String)
    (v : Rat) : assocGet (assocSet l k v) k = some v := by
  unfold assocSet
  split
  case isTrue h => exact assocGetMap_self l k v h
  case isFalse h =>
    have hf : l.any (fun p => p.1 == k) = false := by
      cases hv : l.any (fun p => p.1 == k) with
      | true => exact absurd hv h
      | false => rfl
    exact assocGetAppend_self_of_absent l k v hf

/-- `assocSet` then lookup of a different key. -/
theorem assocGet_assocSet_ne (l : List (String × Rat)) (k k2 : String)
    (v : Rat) (hk : k2 ≠ k) :
    assocGet (assocSet l k v) k2 = assocGet l k2 := by
  unfold assocSet
  split
  case isTrue h => exact assocGetMap_ne l k k2 v hk
  case isFalse h => exact assocGetAppend_ne l k k2 v hk

/-- C8, counterexample: the throttler keys its state on
`urlparse(url).netloc` — the host alone — so two URLs whose
"(scheme+host)" domains differ can still throttle each other: after a
request to `http://example.com/a` at time 0, a call for
`https://example.com/b` at time 1 sleeps a full second on account of
what the claim counts as a different domain's state. -/
theorem C8_counterexample :
    schemeHost "http://example.com/a" ≠ schemeHost "https://example.com/b"
    ∧ (((({ default_delay := 2 } : DomainThrottler).throttle
          "http://example.com/a" 0).2.throttle
          "https://example.com/b" 1).1 = 1
    ∧ (1 : Rat) ≠ 0) := by
  have hd1 : throttlerDomain "http://example.com/a" = "example.com" := by
    decide
  have hd2 : throttlerDomain "https://example.com/b" = "example.com" := by
    decide
  refine ⟨by decide, ?_, by norm_num⟩
  simp only [DomainThrottler.throttle, DomainThrottler.delayFor, hd1, hd2,
    assocGet, assocSet, List.find?, List.any_nil, Option.map_none,
    Option.getD_none, List.nil_append, Bool.false_eq_true, if_false,
    List.find?_cons_of_pos, beq_self_eq_true, Option.map_some,
    Option.getD_some]
  norm_num

/-- C8 (amended): with domains identified by the URL's host (netloc) as
the code does, `throttle` returns only after at least the configured
delay (per-domain override or default) has elapsed since that host's
recorded last request, records the wake-up time as the host's new
last-request time, leaves every other host's entry unchanged, and its
sleep time depends only on the url's own host entry and delay. -/
theorem throttle_spec (th : DomainThrottler) (url : String) (now : Rat) :
    (∀ last, assocGet th.last_request (throttlerDomain url) = some last →
        last + th.delayFor (throttlerDomain url)
          ≤ now + (th.throttle url now).1)
    ∧ (assocGet th.last_request (throttlerDomain url) = none →
        (th.throttle url now).1 = 0)
    ∧ assocGet (th.throttle url now).2.last_request (throttlerDomain url)
        = some (now + (th.throttle url now).1)
    ∧ (∀ d, d ≠ throttlerDomain url →
        assocGet (th.throttle url now).2.last_request d
          = assocGet th.last_request d)
    ∧ (∀ th2 : DomainThrottler,
        assocGet th2.last_request (throttlerDomain url)
          = assocGet th.last_request (throttlerDomain url) →
        th2.delayFor (throttlerDomain url) = th.delayFor (throttlerDomain url) →
        (th2.throttle url now).1 = (th.throttle url now).1) := by
  refine ⟨?_, ?_, ?_, ?_, ?_⟩
  · intro last hlast
    simp only [DomainThrottler.throttle, hlast]
    split
    case isTrue h => exact le_of_eq (by ring)
    case isFalse h =>
        have h2 : th.delayFor (throttlerDomain url) ≤ now - last := le_of_not_lt h
        calc last + th.delayFor (throttlerDomain url)
            ≤ last + (now - last) := by exact add_le_add_left h2 last
          _ = now + 0 := by ring
  · intro hnone
    simp [DomainThrottler.throttle, hnone]
  · simp only [DomainThrottler.throttle]
    exact assocGet_assocSet_self th.last_request (throttlerDomain url) _
  · intro d hd
    simp only [DomainThrottler.throttle]
    exact assocGet_assocSet_ne th.last_request (throttlerDomain url) d _ hd
  · intro th2 hlast hdelay
    simp only [DomainThrottler.throttle, hlast, hdelay]

/-- A concrete throttler with one recorded request. -/
def thW : DomainThrottler :=
  { default_delay := 2, last_request := [("example.com", 0)] }

/-- C8 witness: concrete wake-up bound, recorded time and unaffected
other domain. -/
theorem throttle_spec_witness :
    (0 : Rat) + thW.delayFor (throttlerDomain "https://example.com/x")
      ≤ 3 + (thW.throttle "https://example.com/x" 3).1
    ∧ assocGet (thW.throttle "https://example.com/x" 3).2.last_request
        (throttlerDomain "https://example.com/x")
      = some (3 + (thW.throttle "https://example.com/x" 3).1)
    ∧ assocGet (thW.throttle "https://example.com/x" 3).2.last_request
        "other.com" = assocGet thW.last_request "other.com" := by
  obtain ⟨h1, -, h3, h4, -⟩ := throttle_spec thW "https://example.com/x" 3
  exact ⟨h1 0 (by decide), h3, h4 "other.com" (by decide)⟩

/-! ## Claim C9 -/

/-- `digitVal` inverts an explicit digit character. -/
theorem digitVal_ofNat (r : Nat) (h : r < 10) :
    digitVal (Char.ofNat (48 + r)) = some r := by
  interval_cases r <;> decide

/-- `digitVal` inverts `digitChar` up to the final decimal digit. -/
theorem digitVal_digitChar (k : Nat) :
    digitVal (digitChar k) = some (k % 10) := by
  unfold digitChar
  exact digitVal_ofNat (k % 10) (Nat.mod_lt k (by norm_num))

/-- `parse2` inverts `pad2` below 100. -/
theorem parse2_pad2 (n : Nat) (h : n < 100) (rest : List Char) :
    parse2 (pad2 n ++ rest) = some (n, rest) := by
  have e : 10 * (n / 10 % 10) + n % 10 = n := by omega
  show parse2 (digitChar (n / 10) :: digitChar n :: rest) = some (n, rest)
  simp [parse2, digitVal_digitChar, e]

/-- `parse4` inverts `pad4` below 10000. -/
theorem parse4_pad4 (n : Nat) (h : n < 10000) (rest : List Char) :
    parse4 (pad4 n ++ rest) = some (n, rest) := by
  have e : ((10 * (n / 1000 % 10) + n / 100 % 10) * 10 + n / 10 % 10) * 10
      + n % 10 = n := by omega
  show parse4 (digitChar (n / 1000) :: digitChar (n / 100) ::
    digitChar (n / 10) :: digitChar n :: rest) = some (n, rest)
  simp [parse4, digitVal_digitChar, e]

/-- `parse6` inverts `pad6` below 1000000. -/
theorem parse6_pad6 (n : Nat) (h : n < 1000000) (rest : List Char) :
    parse6 (pad6 n ++ rest) = some (n, rest) := by
  have e : ((((10 * (n / 100000 % 10) + n / 10000 % 10) * 10
      + n / 1000 % 10) * 10 + n / 100 % 10) * 10 + n / 10 % 10) * 10
      + n % 10 = n := by omega
  show parse6 (digitChar (n / 100000) :: digitChar (n / 10000) ::
    digitChar (n / 1000) :: digitChar (n / 100) :: digitChar (n / 10) ::
    digitChar n :: rest) = some (n, rest)
  simp [parse6, digitVal_digitChar, e]

/-- `expectChar` consumes the expected character. -/
theorem expectChar_cons (c : Char) (rest : List Char) :
    expectChar c (c :: rest) = some rest := by
  simp [expectChar]

/-- An ISO timestamp is never the empty string. -/
theorem isoformat_ne_empty (dt : DateTime) : isoformat dt ≠ "" := by
  intro h
  have h2 : (isoformat dt).data = ("" : String).data := congrArg String.data h
  rw [show ("" : String).data = [] from rfl] at h2
  unfold isoformat at h2
  simp [pad4] at h2

/-- Monadic bind of a `some`, in the exact form produced by
do-notation. -/
theorem optBind_some {α β : Type} (a : α) (f : α → Option β) :
    (do let x ← some a; f x : Option β) = f a := rfl

/-- `parse2` inverts `pad2` at the end of the input. -/
theorem parse2_pad2_nil (n : Nat) (h : n < 100) :
    parse2 (pad2 n) = some (n, []) := by
  have := parse2_pad2 n h []
  simpa using this

/-- `parse6` inverts `pad6` at the end of the input. -/
theorem parse6_pad6_nil (n : Nat) (h : n < 1000000) :
    parse6 (pad6 n) = some (n, []) := by
  have := parse6_pad6 n h []
  simpa using this

/-- ISO printing followed by the modelled re-parse is the identity on
well-formed timestamps. -/
theorem parseIso_isoformat (dt : DateTime) (h : dt.wf = true) :
    parseIso (isoformat dt) = some dt := by
  obtain ⟨y, mo, d, hh, mi, s, us⟩ := dt
  simp only [DateTime.wf, Bool.and_eq_true, decide_eq_true_eq] at h
  obtain ⟨⟨⟨⟨⟨⟨h1, h2⟩, h3⟩, h4⟩, h5⟩, h6⟩, h7⟩ := h
  unfold parseIso isoformat
  by_cases hus : us = 0
  · subst hus
    simp only [eq_self_iff_true, if_true, List.append_nil]
    simp only [parse4_pad4 y h1, parse2_pad2 mo h2, parse2_pad2 d h3,
      parse2_pad2 hh h4, parse2_pad2 mi h5, parse2_pad2_nil s h6,
      expectChar_cons, optBind_some]
    rfl
  · simp only [if_neg hus]
    simp only [parse4_pad4 y h1, parse2_pad2 mo h2, parse2_pad2 d h3,
      parse2_pad2 hh h4, parse2_pad2 mi h5, parse2_pad2 s h6,
      expectChar_cons, parse6_pad6_nil us h7, optBind_some]
    simp

/-- Re-parsing an exported row recovers the article id. -/
theorem rowToArticle_article_to_row_id (a : Article)
    (h : a.wfDates = true) :
    (rowToArticle (article_to_row a)).map Article.id = some a.id := by
  unfold Article.wfDates at h
  rw [Bool.and_eq_true] at h
  obtain ⟨hs, hp⟩ := h
  unfold article_to_row rowToArticle
  cases hpd : a.published_date with
  | none => simp [parseIso_isoformat _ hs]
  | some dte =>
      have hdw : dte.wf = true := by
        rw [hpd] at hp
        simpa [Option.all] using hp
      simp [parseIso_isoformat _ hs, parseIso_isoformat _ hdw,
        isoformat_ne_empty dte]

/-- C9, counterexample: `_article_to_row` maps an absent summary and an
empty-string summary to the same row, so no re-parser can reconstruct
"every persisted article field losslessly". -/
theorem C9_counterexample :
    article_to_row { cArtL1 with summary := none }
      = article_to_row { cArtL1 with summary := some "" }
    ∧ ({ cArtL1 with summary := none } : Article)
      ≠ { cArtL1 with summary := some "" } := by
  exact ⟨by decide, by decide⟩

/-- List form of the id round-trip. -/
theorem rows_ids_list (l : List Article)
    (h : ∀ a ∈ l, a.wfDates = true) :
    l.map (fun a => (rowToArticle (article_to_row a)).map Article.id)
      = l.map (fun a => some a.id) := by
  induction l with
  | nil => rfl
  | cons a t ih =>
      rw [List.map_cons, List.map_cons,
        rowToArticle_article_to_row_id a (h a (List.mem_cons_self a t)),
        ih (fun b hb => h b (List.mem_cons_of_mem a hb))]

/-- C9 (amended): exporting a collection to the flat CSV row format and
re-parsing each row reconstructs the exported sequence of ids exactly
(hence the set of ids), for every collection whose timestamps are
well-formed `datetime` values; the optional-field absent/empty
distinction and the summary `None` case are not recoverable. -/
theorem csv_roundtrip_ids (c : ArticleCollection)
    (h : ∀ a ∈ c.articles, a.wfDates = true) :
    c.articles.map (fun a => (rowToArticle (article_to_row a)).map Article.id)
      = c.articles.map (fun a => some a.id) :=
  rows_ids_list c.articles h

/-- A concrete well-formed article with a published date. -/
def cArtP : Article :=
  { cArtL1 with published_date := some ⟨2025, 1, 5, 10, 30, 0, 0⟩ }

/-- C9 witness at a concrete one-article collection. -/
theorem csv_roundtrip_ids_witness :
    ({ articles := [cArtP], total_count := 1, scraped_at := cNow } :
        ArticleCollection).articles.map
      (fun a => (rowToArticle (article_to_row a)).map Article.id)
      = [some "i1"] := by
  have h := csv_roundtrip_ids
    { articles := [cArtP], total_count := 1, scraped_at := cNow }
    (by decide)
  exact h.trans (by decide)

end NewsScraper
